import Mathlib

set_option maxRecDepth 8000

/-!
Verification development for the segmentation / classification / figure-caption
merge engine of StockTermAgent (src/agent/TermETActionIDataPreparer_V5.py,
function process_book and its helpers).  Text is modelled as List Char
(Python str is a sequence of code points); the per-book configuration is the
keyword list plus the source label.  The regexes of the source are compiled by
hand into equivalent deterministic scanners (each pattern is simple enough to
admit a backtracking-free reading, noted at each definition).
-/

namespace StockTerm

/-- Whitespace as treated by Python str.strip and str.split: the ASCII
whitespace characters (exotic Unicode spaces do not occur in this corpus). -/
def pyIsSpace (c : Char) : Bool :=
  c == ' ' || c == '\t' || c == '\n' || c == '\r' || c == '\x0b' || c == '\x0c'

/-- Python str.strip(): drop whitespace from both ends. -/
def pyStrip (s : List Char) : List Char :=
  ((s.dropWhile pyIsSpace).reverse.dropWhile pyIsSpace).reverse

/-- Python str.startswith on char lists: does the second list begin with the first? -/
def startsWithSeq : List Char → List Char → Bool
  | [], _ => true
  | _ :: _, [] => false
  | a :: as, b :: bs => a == b && startsWithSeq as bs

/-- Python substring containment (needle in hay). -/
def containsSub (needle : List Char) : List Char → Bool
  | [] => needle.isEmpty
  | b :: bs => startsWithSeq needle (b :: bs) || containsSub needle bs

/-- Helper for pySplit: the accumulator holds the current token reversed. -/
def pySplitGo : List Char → List Char → List (List Char)
  | [], acc => if acc.isEmpty then [] else [acc.reverse]
  | c :: rest, acc =>
    if pyIsSpace c then
      if acc.isEmpty then pySplitGo rest [] else acc.reverse :: pySplitGo rest []
    else pySplitGo rest (c :: acc)

/-- Python str.split() with no argument: split on whitespace runs, no empty tokens. -/
def pySplit (s : List Char) : List (List Char) := pySplitGo s []

/-- Python str.endswith for a one-character suffix. -/
def endsWithChar (s : List Char) (c : Char) : Bool :=
  match s.getLast? with
  | some d => d == c
  | none => false

/-- The numeral characters of the chapter pattern 第[一二三四五六七八九十百]+章. -/
def chapterNumChar (c : Char) : Bool :=
  c == '一' || c == '二' || c == '三' || c == '四' || c == '五' || c == '六' ||
  c == '七' || c == '八' || c == '九' || c == '十' || c == '百'

/-- Anchored match of 第[一二三四五六七八九十百]+章(\s|$).  The numeral class and
章 are disjoint, so the greedy scan is exact. -/
def matchChapterCN : List Char → Bool
  | '第' :: rest =>
    (!(rest.takeWhile chapterNumChar).isEmpty) &&
    (match rest.dropWhile chapterNumChar with
     | '章' :: [] => true
     | '章' :: c :: _ => pyIsSpace c
     | _ => false)
  | _ => false

/-- Anchored match of CHAPTER\s+\d+, case-insensitively (\s and \d are disjoint,
so the greedy scan is exact). -/
def matchChapterEN (s : List Char) : Bool :=
  startsWithSeq ['c', 'h', 'a', 'p', 't', 'e', 'r'] (s.map Char.toLower) &&
  (!((s.drop 7).takeWhile pyIsSpace).isEmpty) &&
  (match (s.drop 7).dropWhile pyIsSpace with
   | c :: _ => c.isDigit
   | [] => false)

/-- extract_chapter_title of V5: try both chapter patterns on the stripped text;
on a match return the whole stripped text. -/
def extract_chapter_title (text : List Char) : Option (List Char) :=
  if matchChapterCN (pyStrip text) || matchChapterEN (pyStrip text) then
    some (pyStrip text)
  else none

/-- The section keywords of extract_section_title in V5. -/
def sectionKeywords : List (List Char) :=
  ["形态".toList, "模型".toList, "K线".toList, "线图".toList, "指标".toList, "趋势".toList]

/-- extract_section_title of V5: stripped length at most 50 and some section
keyword occurs in the raw text; returns the stripped text. -/
def extract_section_title (text : List Char) : Option (List Char) :=
  if (pyStrip text).length ≤ 50 ∧ (sectionKeywords.any fun kw => containsSub kw text) then
    some (pyStrip text)
  else none

/-- One attempt of the figure pattern 图\d+(\.\d+)?|Figure\s+\d+(\.\d+)? at the
head of the list (case-insensitive); returns the matched token (group 1).
All adjacent pieces of the pattern are over disjoint character classes, so
greedy scanning without backtracking is exact. -/
def figAt (s : List Char) : Option (List Char) :=
  match s with
  | '图' :: rest =>
    let ds := rest.takeWhile Char.isDigit
    if ds.isEmpty then none
    else
      match rest.drop ds.length with
      | '.' :: rest2 =>
        let ds2 := rest2.takeWhile Char.isDigit
        if ds2.isEmpty then some ('图' :: ds) else some ('图' :: ds ++ '.' :: ds2)
      | _ => some ('图' :: ds)
  | _ =>
    if startsWithSeq ['f', 'i', 'g', 'u', 'r', 'e'] (s.map Char.toLower) then
      let rest := s.drop 6
      let ws := rest.takeWhile pyIsSpace
      if ws.isEmpty then none
      else
        let rest2 := rest.drop ws.length
        let ds := rest2.takeWhile Char.isDigit
        if ds.isEmpty then none
        else
          let head := s.take 6 ++ ws ++ ds
          match rest2.drop ds.length with
          | '.' :: rest3 =>
            let ds2 := rest3.takeWhile Char.isDigit
            if ds2.isEmpty then some head else some (head ++ '.' :: ds2)
          | _ => some head
    else none

/-- extract_figure of V5: re.search, i.e. the leftmost position where the
pattern matches. -/
def extract_figure : List Char → Option (List Char)
  | [] => none
  | c :: rest =>
    match figAt (c :: rest) with
    | some m => some m
    | none => extract_figure rest

/-- The copula character class [是为指称叫属于构成] of the definition rule. -/
def copulaChar (c : Char) : Bool :=
  c == '是' || c == '为' || c == '指' || c == '称' || c == '叫' || c == '属' ||
  c == '于' || c == '构' || c == '成'

/-- Scan for the literal 一种 occurring before any newline. -/
def hasYiZhongBeforeNL : List Char → Bool
  | '一' :: '种' :: _ => true
  | c :: rest => if c == '\n' then false else hasYiZhongBeforeNL rest
  | [] => false

/-- The definition rule regex .*?[是为指称叫属于构成]+.*?一种.*?[形态模型结构]? of V5
(re.match).  The trailing .*?[...]? always matches the empty string, so the
pattern matches iff some copula character occurs with the literal 一种 strictly
after it and no newline anywhere before that occurrence of 一种 (the dot does
not match a newline).  Scanning to the first copula is complete because any
position after a later copula is also after the first one. -/
def defnMatch : List Char → Bool
  | [] => false
  | c :: rest =>
    if copulaChar c then hasYiZhongBeforeNL rest
    else if c == '\n' then false
    else defnMatch rest

/-- The action keywords of the trading-logic rule in V5. -/
def actionKeywords : List (List Char) :=
  ["买入".toList, "卖出".toList, "信号".toList, "建议".toList, "触发".toList, "策略".toList]

/-- The structural keywords of the term rule in V5. -/
def termKeywords : List (List Char) :=
  ["形态".toList, "模型".toList, "K线".toList, "指标".toList]

/-- The closed set of entry types (values 定义 / 交易逻辑 / 图注 / 术语 / 说明). -/
inductive EntryType where
  | definition
  | tradingLogic
  | figureCaption
  | term
  | explanation
deriving DecidableEq

/-- classify_type of V5: first-match-wins rule order. -/
def classify_type (text : List Char) : EntryType :=
  if defnMatch text then EntryType.definition
  else if actionKeywords.any fun kw => containsSub kw text then EntryType.tradingLogic
  else if (extract_figure text).isSome then EntryType.figureCaption
  else if text.length ≤ 60 ∧ (termKeywords.any fun kw => containsSub kw text) then EntryType.term
  else EntryType.explanation

/-- The blocklist of is_valid in V5: re.search of an alternation of literal
substrings (the escaped www\. is the literal www.). -/
def blockPhrases : List (List Char) :=
  ["免责声明".toList, "版权所有".toList, "微信".toList, "扫码".toList, "www.".toList,
   "http".toList, "大学".toList, "出版社".toList, "图表来源".toList, "技术支持".toList]

/-- is_valid of V5; the keyword list is per-book configuration. -/
def is_valid (text : List Char) (keywords : List (List Char)) : Bool :=
  if ¬ (15 ≤ text.length ∧ text.length ≤ 500) then false
  else if ¬ (keywords.any fun kw => containsSub kw text) then false
  else if blockPhrases.any fun kw => containsSub kw text then false
  else if endsWithChar text '：' || (pySplit text).length < 2 then false
  else true

/-- Helper for merge_lines: the running paragraph is flushed as soon as it
reaches 120 characters; a nonempty remainder is flushed at the end. -/
def mergeLinesGo : List (List Char) → List Char → List (List Char)
  | [], para => if para.isEmpty then [] else [para]
  | l :: ls, para =>
    let para2 := if para.isEmpty then pyStrip l else para ++ ' ' :: pyStrip l
    if 120 ≤ para2.length then para2 :: mergeLinesGo ls [] else mergeLinesGo ls para2

/-- merge_lines of V5 with the default max_len = 120 (the only call site uses
the default). -/
def merge_lines (lines : List (List Char)) : List (List Char) :=
  mergeLinesGo lines []

/-- Per-book configuration: keyword list and source label. -/
structure Config where
  keywords : List (List Char)
  source : List Char
deriving DecidableEq

/-- The output record.  The Python dict always carries the type key (it is set
when the entry is first built and never deleted); text_full and
from_figure_merge are present only on merged entries, modelled by Option and a
Bool that is false unless the merge path sets it. -/
structure Entry where
  text : List Char
  page : Nat
  chapter : Option (List Char)
  sectionTitle : Option (List Char)
  figure : Option (List Char)
  etype : EntryType
  source : List Char
  textFull : Option (List Char)
  fromFigureMerge : Bool
  contextWindow : List (List Char)
deriving DecidableEq

/-- The engine state of process_book: output list, caption buffer (a Python
list used with append and pop), and the chapter / section context. -/
structure EngState where
  results : List Entry
  buffer : List Entry
  chapter : Option (List Char)
  currentSection : Option (List Char)
deriving DecidableEq

def initState : EngState :=
  { results := [], buffer := [], chapter := none, currentSection := none }

/-- The dict pushed to the buffer for a figure-caption paragraph (V5 lines
145-153); it has no text_full / from_figure_merge / context_window keys yet. -/
def bufEntry (cfg : Config) (pg : Nat) (st : EngState) (para : List Char) : Entry :=
  { text := para
    page := pg
    chapter := st.chapter
    sectionTitle := st.currentSection
    figure := extract_figure para
    etype := classify_type para
    source := cfg.source
    textFull := none
    fromFigureMerge := false
    contextWindow := [] }

/-- The update applied to a popped buffer entry at merge time (V5 lines
157-165): text_full is the held text, a space, then the continuation; page,
chapter and section_title are overwritten with the current values; the context
window is cleared. -/
def mergedFrom (pg : Nat) (st : EngState) (held : Entry) (para : List Char) : Entry :=
  { held with
    textFull := some (held.text ++ ' ' :: para)
    fromFigureMerge := true
    contextWindow := []
    page := pg
    chapter := st.chapter
    sectionTitle := st.currentSection }

/-- The standalone entry built when the buffer is empty (V5 lines 168-177);
the context window is the text of the last two results when at least two
exist, else empty. -/
def standaloneEntry (cfg : Config) (pg : Nat) (st : EngState) (para : List Char) : Entry :=
  { text := para
    page := pg
    chapter := st.chapter
    sectionTitle := st.currentSection
    figure := extract_figure para
    etype := classify_type para
    source := cfg.source
    textFull := none
    fromFigureMerge := false
    contextWindow :=
      if 2 ≤ st.results.length then
        ((st.results.drop (st.results.length - 2)).map Entry.text)
      else [] }

/-- One iteration of the paragraph loop of process_book (V5 lines 119-178):
chapter check, section check, validity filter, then caption push or buffer
resolution.  The buffer is appended to at the end and popped from the end. -/
def stepPara (cfg : Config) (pg : Nat) (st : EngState) (para : List Char) : EngState :=
  match extract_chapter_title para with
  | some t => { st with chapter := some t }
  | none =>
    match extract_section_title para with
    | some t => { st with currentSection := some t }
    | none =>
      if is_valid para cfg.keywords then
        if classify_type para = EntryType.figureCaption then
          { st with buffer := st.buffer ++ [bufEntry cfg pg st para] }
        else
          match st.buffer.getLast? with
          | some held =>
            { st with
              buffer := st.buffer.dropLast
              results := st.results ++ [mergedFrom pg st held para] }
          | none =>
            { st with results := st.results ++ [standaloneEntry cfg pg st para] }
      else st

/-- The per-page line preparation of V5 line 117: strip every raw line and keep
the nonempty ones. -/
def pageLines (raw : List (List Char)) : List (List Char) :=
  raw.filterMap fun l => if (pyStrip l).isEmpty then none else some (pyStrip l)

/-- Processing of one page: the stripped nonempty lines are merged into
paragraphs and folded through the paragraph loop. -/
def process_page (cfg : Config) (pg : Nat) (raw : List (List Char)) (st : EngState) : EngState :=
  (merge_lines (pageLines raw)).foldl (stepPara cfg pg) st

/-- The page loop; pages are numbered from 1 (page.number + 1). -/
def process_pages (cfg : Config) : List (List (List Char)) → Nat → EngState → EngState
  | [], _, st => st
  | pg :: rest, n, st => process_pages cfg rest (n + 1) (process_page cfg n pg st)

/-- process_book of V5 as a function from the extracted pages (each a list of
raw lines) to the ordered output sequence.  Any entry still held in the buffer
at the end of the stream is discarded: only results is returned (and written
out by the serializer). -/
def process_book (cfg : Config) (pages : List (List (List Char))) : List Entry :=
  (process_pages cfg pages 1 initState).results

/-! ### Exception-propagation model of process_book

process_book in the source contains no try / except: any exception raised
while handling a line propagates out of the whole call.  To express that, the
raw lines are Option values, where none stands for a line whose processing
raises (e.g. a non-string block delivered by the PDF layer); the untouched
control flow of process_book is reproduced with Except. -/

/-- Line preparation of V5 line 117 over possibly-malformed lines: a raising
line aborts the page (and, with no handler anywhere, the book). -/
def pageLinesExc : List (Option (List Char)) → Except Unit (List (List Char))
  | [] => Except.ok []
  | none :: _ => Except.error ()
  | some l :: rest =>
    match pageLinesExc rest with
    | Except.error e => Except.error e
    | Except.ok ls => Except.ok (if (pyStrip l).isEmpty then ls else pyStrip l :: ls)

/-- The page loop with exception propagation: no handler, so an error on any
page aborts the remaining pages. -/
def processPagesExc (cfg : Config) :
    List (List (Option (List Char))) → Nat → EngState → Except Unit EngState
  | [], _, st => Except.ok st
  | pg :: rest, n, st =>
    match pageLinesExc pg with
    | Except.error e => Except.error e
    | Except.ok ls => processPagesExc cfg rest (n + 1) ((merge_lines ls).foldl (stepPara cfg n) st)

/-- process_book under Python exception semantics: an uncaught raise yields no
output at all (the partial results list is lost with the aborted call). -/
def process_book_exc (cfg : Config) (pages : List (List (Option (List Char)))) :
    Except Unit (List Entry) :=
  match processPagesExc cfg pages 1 initState with
  | Except.error e => Except.error e
  | Except.ok st => Except.ok st.results

/-! ### Derived predicates over the embedding -/

/-- Relation between the merge flag and the caption type on one finalized
entry: an entry is a merge product exactly when its retained type label is the
caption type. -/
def entryInv (e : Entry) : Prop :=
  e.fromFigureMerge = true ↔ e.etype = EntryType.figureCaption

/-- Engine-state invariant: all pending buffer entries are caption-typed and
all finalized entries satisfy entryInv. -/
def stateInv (st : EngState) : Prop :=
  (∀ e ∈ st.buffer, e.etype = EntryType.figureCaption) ∧ (∀ e ∈ st.results, entryInv e)

/-- The paragraph survives the chapter check, the section check and the
validity filter (i.e. reaches the classification stage). -/
def keepPred (cfg : Config) (para : List Char) : Bool :=
  (extract_chapter_title para).isNone && (extract_section_title para).isNone &&
    is_valid para cfg.keywords

/-- All paragraphs of a book, page by page, in stream order. -/
def bookParas (pages : List (List (List Char))) : List (List Char) :=
  (pages.map fun pg => merge_lines (pageLines pg)).flatten

/-! ### Concrete data used by counterexamples and witnesses -/

/-- A small configuration: one keyword, chosen so that the test paragraphs do
not accidentally hit the section-keyword list. -/
def cfgT : Config := { keywords := ["突破".toList], source := "测试".toList }

/-- A figure-caption paragraph (valid, classified 图注 via the token 图1). -/
def capA : List Char := "图1 这是一个突破的例子说明文字".toList

/-- A second figure-caption paragraph (valid, classified 图注 via 图2). -/
def capB : List Char := "图2 另一个突破样例的描述内容".toList

/-- A valid non-caption continuation paragraph (classified 说明). -/
def parA : List Char := "这里出现了突破 行情随后继续上行发展".toList

/-- Another valid non-caption continuation paragraph (classified 说明). -/
def parB : List Char := "突破之后出现回落 价格重新测试原有区间".toList

/-- The merged entry produced by process_book cfgT on the two pages
page 1 = the caption capA, page 2 = the continuation parA. -/
def wEntry : Entry :=
  { text := capA
    page := 2
    chapter := none
    sectionTitle := none
    figure := some "图1".toList
    etype := EntryType.figureCaption
    source := "测试".toList
    textFull := some (capA ++ ' ' :: parA)
    fromFigureMerge := true
    contextWindow := [] }

/-- A buffered caption entry recorded at page 1 with empty context state. -/
def heldW : Entry := bufEntry cfgT 1 initState capA

/-- A state holding heldW with chapter and section context that differs from
the values recorded inside heldW. -/
def stW6 : EngState :=
  { results := []
    buffer := [heldW]
    chapter := some "第二章".toList
    currentSection := some "趋势形态小节".toList }

/-- A finalized standalone entry used to pre-populate result lists. -/
def entA : Entry := standaloneEntry cfgT 1 initState parA

/-- A second finalized standalone entry used to pre-populate result lists. -/
def entB : Entry := standaloneEntry cfgT 1 initState parB

/-- A state with two already-finalized entries and an empty buffer. -/
def stW8 : EngState :=
  { results := [entA, entB]
    buffer := []
    chapter := none
    currentSection := none }

/-- The configuration of the concrete scenario of the spec (keywords including
形态 and 突破). -/
def cfgC4 : Config :=
  { keywords := ["形态".toList, "突破".toList], source := "日本蜡烛图技术".toList }

/-- The four raw lines of the concrete scenario, as one page. -/
def c4lines : List (List Char) :=
  ["第一章 概述".toList,
   "头肩顶是一种看跌反转形态，常见于趋势顶部区域。".toList,
   "图6.57 头肩顶示例".toList,
   "如图所示，颈线突破确认了该形态的有效性。".toList]

/-- Configuration whose keyword list contains 形态. -/
def cfgF : Config := { keywords := ["形态".toList], source := "测".toList }

/-- A paragraph that passes the validity filter and would classify as 术语,
but contains the section keyword 形态 with stripped length at most 50. -/
def secPara : List Char := "头肩顶形态 常见的反转形态之一".toList

/-! ### List helpers (Python list append / pop from the end) -/

theorem getLast?_append_single {α : Type} (l : List α) (a : α) :
    (l ++ [a]).getLast? = some a := by
  induction l with
  | nil => rfl
  | cons b l ih =>
    rw [List.cons_append, List.getLast?_cons, ih]
    rfl

theorem dropLast_append_single {α : Type} (l : List α) (a : α) :
    (l ++ [a]).dropLast = l := by
  simp

theorem mem_of_getLast?_eq {α : Type} {l : List α} {a : α} (h : l.getLast? = some a) :
    a ∈ l := by
  induction l with
  | nil => simp at h
  | cons b l ih =>
    cases l with
    | nil =>
      simp [List.getLast?] at h
      simp [h]
    | cons c l2 =>
      rw [List.getLast?_cons_cons] at h
      exact List.mem_cons_of_mem _ (ih h)

theorem mem_of_mem_dropLast {α : Type} {l : List α} {a : α} (h : a ∈ l.dropLast) :
    a ∈ l :=
  List.dropLast_subset l h

theorem drop_length_append {α : Type} (l1 l2 : List α) :
    (l1 ++ l2).drop l1.length = l2 := by
  induction l1 with
  | nil => rfl
  | cons b l ih => simp only [List.cons_append, List.length_cons, List.drop_succ_cons]; exact ih

/-! ### Branch lemmas for stepPara -/

theorem stepPara_chapter (cfg : Config) (pg : Nat) (st : EngState) {para t : List Char}
    (h : extract_chapter_title para = some t) :
    stepPara cfg pg st para = { st with chapter := some t } := by
  unfold stepPara
  rw [h]

theorem stepPara_section (cfg : Config) (pg : Nat) (st : EngState) {para t : List Char}
    (h1 : extract_chapter_title para = none)
    (h2 : extract_section_title para = some t) :
    stepPara cfg pg st para = { st with currentSection := some t } := by
  unfold stepPara
  rw [h1, h2]

theorem stepPara_invalid (cfg : Config) (pg : Nat) (st : EngState) {para : List Char}
    (h1 : extract_chapter_title para = none)
    (h2 : extract_section_title para = none)
    (h3 : is_valid para cfg.keywords = false) :
    stepPara cfg pg st para = st := by
  unfold stepPara
  rw [h1, h2]
  simp [h3]

theorem stepPara_caption (cfg : Config) (pg : Nat) (st : EngState) {para : List Char}
    (h1 : extract_chapter_title para = none)
    (h2 : extract_section_title para = none)
    (h3 : is_valid para cfg.keywords = true)
    (h4 : classify_type para = EntryType.figureCaption) :
    stepPara cfg pg st para = { st with buffer := st.buffer ++ [bufEntry cfg pg st para] } := by
  unfold stepPara
  rw [h1, h2]
  simp [h3, h4]

theorem stepPara_merge (cfg : Config) (pg : Nat) (st : EngState) {para : List Char} {held : Entry}
    (h1 : extract_chapter_title para = none)
    (h2 : extract_section_title para = none)
    (h3 : is_valid para cfg.keywords = true)
    (h4 : classify_type para ≠ EntryType.figureCaption)
    (h5 : st.buffer.getLast? = some held) :
    stepPara cfg pg st para =
      { st with
        buffer := st.buffer.dropLast
        results := st.results ++ [mergedFrom pg st held para] } := by
  unfold stepPara
  rw [h1, h2]
  simp [h3, h4, h5]

theorem stepPara_standalone (cfg : Config) (pg : Nat) (st : EngState) {para : List Char}
    (h1 : extract_chapter_title para = none)
    (h2 : extract_section_title para = none)
    (h3 : is_valid para cfg.keywords = true)
    (h4 : classify_type para ≠ EntryType.figureCaption)
    (h5 : st.buffer.getLast? = none) :
    stepPara cfg pg st para =
      { st with results := st.results ++ [standaloneEntry cfg pg st para] } := by
  unfold stepPara
  rw [h1, h2]
  simp [h3, h4, h5]

/-! ### The merge-flag / caption-type invariant of the output sequence -/

theorem stateInv_init : stateInv initState := by
  constructor <;> intro e he <;> simp [initState] at he

theorem stepPara_inv (cfg : Config) (pg : Nat) (para : List Char) (st : EngState)
    (h : stateInv st) : stateInv (stepPara cfg pg st para) := by
  obtain ⟨hb, hr⟩ := h
  cases hc : extract_chapter_title para with
  | some t =>
    rw [stepPara_chapter cfg pg st hc]
    exact ⟨hb, hr⟩
  | none =>
    cases hs : extract_section_title para with
    | some t =>
      rw [stepPara_section cfg pg st hc hs]
      exact ⟨hb, hr⟩
    | none =>
      cases hv : is_valid para cfg.keywords with
      | false =>
        rw [stepPara_invalid cfg pg st hc hs hv]
        exact ⟨hb, hr⟩
      | true =>
        by_cases ht : classify_type para = EntryType.figureCaption
        · rw [stepPara_caption cfg pg st hc hs hv ht]
          refine ⟨?_, hr⟩
          intro e he
          rcases List.mem_append.mp he with h1 | h1
          · exact hb e h1
          · simp at h1
            subst h1
            simpa [bufEntry] using ht
        · cases hl : st.buffer.getLast? with
          | some held =>
            rw [stepPara_merge cfg pg st hc hs hv ht hl]
            refine ⟨?_, ?_⟩
            · intro e he
              exact hb e (mem_of_mem_dropLast he)
            · intro e he
              rcases List.mem_append.mp he with h1 | h1
              · exact hr e h1
              · simp at h1
                subst h1
                have hcap : held.etype = EntryType.figureCaption :=
                  hb held (mem_of_getLast?_eq hl)
                simp [entryInv, mergedFrom, hcap]
          | none =>
            rw [stepPara_standalone cfg pg st hc hs hv ht hl]
            refine ⟨hb, ?_⟩
            intro e he
            rcases List.mem_append.mp he with h1 | h1
            · exact hr e h1
            · simp at h1
              subst h1
              simp [entryInv, standaloneEntry, ht]

theorem foldl_inv (cfg : Config) (pg : Nat) (paras : List (List Char)) :
    ∀ st : EngState, stateInv st → stateInv (paras.foldl (stepPara cfg pg) st) := by
  induction paras with
  | nil => intro st h; exact h
  | cons p ps ih =>
    intro st h
    rw [List.foldl_cons]
    exact ih _ (stepPara_inv cfg pg p st h)

theorem process_page_inv (cfg : Config) (pg : Nat) (raw : List (List Char)) (st : EngState)
    (h : stateInv st) : stateInv (process_page cfg pg raw st) :=
  foldl_inv cfg pg _ st h

theorem process_pages_inv (cfg : Config) (pages : List (List (List Char))) :
    ∀ (n : Nat) (st : EngState), stateInv st → stateInv (process_pages cfg pages n st) := by
  induction pages with
  | nil => intro n st h; exact h
  | cons pg rest ih =>
    intro n st h
    exact ih (n + 1) (process_page cfg n pg st) (process_page_inv cfg n pg st h)

theorem process_book_inv (cfg : Config) (pages : List (List (List Char))) :
    ∀ e ∈ process_book cfg pages, entryInv e :=
  (process_pages_inv cfg pages 1 initState stateInv_init).2

/-! ### No-caption streams: each kept paragraph becomes one entry, in order -/

theorem foldl_no_caption (cfg : Config) (pg : Nat) (paras : List (List Char)) :
    ∀ st : EngState, st.buffer = [] →
      (∀ p ∈ paras, classify_type p ≠ EntryType.figureCaption) →
      (paras.foldl (stepPara cfg pg) st).buffer = [] ∧
        (paras.foldl (stepPara cfg pg) st).results.map Entry.text =
          st.results.map Entry.text ++ paras.filter (keepPred cfg) := by
  induction paras with
  | nil =>
    intro st hb _
    exact ⟨hb, by simp⟩
  | cons p ps ih =>
    intro st hb h
    have hp := h p (List.mem_cons_self p ps)
    have hrest : ∀ q ∈ ps, classify_type q ≠ EntryType.figureCaption :=
      fun q hq => h q (List.mem_cons_of_mem p hq)
    rw [List.foldl_cons]
    cases hc : extract_chapter_title p with
    | some t =>
      rw [stepPara_chapter cfg pg st hc]
      have hkeep : keepPred cfg p = false := by simp [keepPred, hc]
      obtain ⟨ihb, ihr⟩ := ih { st with chapter := some t } hb hrest
      exact ⟨ihb, by rw [ihr]; simp [List.filter_cons, hkeep]⟩
    | none =>
      cases hs : extract_section_title p with
      | some t =>
        rw [stepPara_section cfg pg st hc hs]
        have hkeep : keepPred cfg p = false := by simp [keepPred, hc, hs]
        obtain ⟨ihb, ihr⟩ := ih { st with currentSection := some t } hb hrest
        exact ⟨ihb, by rw [ihr]; simp [List.filter_cons, hkeep]⟩
      | none =>
        cases hv : is_valid p cfg.keywords with
        | false =>
          rw [stepPara_invalid cfg pg st hc hs hv]
          have hkeep : keepPred cfg p = false := by simp [keepPred, hc, hs, hv]
          obtain ⟨ihb, ihr⟩ := ih st hb hrest
          exact ⟨ihb, by rw [ihr]; simp [List.filter_cons, hkeep]⟩
        | true =>
          have hl : st.buffer.getLast? = none := by rw [hb]; rfl
          rw [stepPara_standalone cfg pg st hc hs hv hp hl]
          have hkeep : keepPred cfg p = true := by simp [keepPred, hc, hs, hv]
          obtain ⟨ihb, ihr⟩ :=
            ih { st with results := st.results ++ [standaloneEntry cfg pg st p] } hb hrest
          refine ⟨ihb, ?_⟩
          rw [ihr]
          simp [List.filter_cons, hkeep, standaloneEntry]

theorem process_page_no_caption (cfg : Config) (pg : Nat) (raw : List (List Char))
    (st : EngState) (hb : st.buffer = [])
    (h : ∀ p ∈ merge_lines (pageLines raw), classify_type p ≠ EntryType.figureCaption) :
    (process_page cfg pg raw st).buffer = [] ∧
      (process_page cfg pg raw st).results.map Entry.text =
        st.results.map Entry.text ++ (merge_lines (pageLines raw)).filter (keepPred cfg) :=
  foldl_no_caption cfg pg _ st hb h

theorem process_pages_no_caption (cfg : Config) (pages : List (List (List Char))) :
    ∀ (n : Nat) (st : EngState), st.buffer = [] →
      (∀ p ∈ bookParas pages, classify_type p ≠ EntryType.figureCaption) →
      (process_pages cfg pages n st).buffer = [] ∧
        (process_pages cfg pages n st).results.map Entry.text =
          st.results.map Entry.text ++ (bookParas pages).filter (keepPred cfg) := by
  induction pages with
  | nil =>
    intro n st hb _
    exact ⟨hb, by show List.map Entry.text st.results = _; simp [bookParas]⟩
  | cons pg rest ih =>
    intro n st hb h
    have hsplit : bookParas (pg :: rest) = merge_lines (pageLines pg) ++ bookParas rest := by
      simp [bookParas]
    have hpage : ∀ p ∈ merge_lines (pageLines pg), classify_type p ≠ EntryType.figureCaption :=
      fun p hpm => h p (by rw [hsplit]; exact List.mem_append_left _ hpm)
    have hrest : ∀ p ∈ bookParas rest, classify_type p ≠ EntryType.figureCaption :=
      fun p hpm => h p (by rw [hsplit]; exact List.mem_append_right _ hpm)
    obtain ⟨h1b, h1r⟩ := process_page_no_caption cfg n pg st hb hpage
    obtain ⟨h2b, h2r⟩ := ih (n + 1) (process_page cfg n pg st) h1b hrest
    refine ⟨h2b, ?_⟩
    show (process_pages cfg rest (n + 1) (process_page cfg n pg st)).results.map Entry.text = _
    rw [h2r, h1r, hsplit, List.filter_append, List.append_assoc]

/-! ### Claim C1 -/

/-- Claim C1, counterexample: on four one-line pages caption capA, caption
capB, continuation parA, continuation parB, the output contains TWO merged
entries and the earlier caption capA (the claim's L1) appears in the output as
the text of the second one — the buffer did not replace capA with capB. -/
theorem c1_counterexample :
    (process_book cfgT [[capA], [capB], [parA], [parB]]).map Entry.text = [capB, capA] := by
  decide

/-- Claim C1 (amended): the merge buffer is an unbounded LIFO stack, not a
capacity-one replace slot.  A new figure-caption paragraph is appended while
one is pending; a continuation pops and merges the most recently buffered
caption.  For two consecutive caption lines L1, L2 followed by two non-caption
paragraphs P1, P2, the engine emits merge(L2, P1) and then merge(L1, P2):
L2 is merged first, but L1 stays pending and is merged later, so L1 can appear
in the output. -/
theorem c1_buffer_is_stack (cfg : Config) (pg : Nat) (st : EngState)
    (L1 L2 P1 P2 : List Char)
    (h1c : extract_chapter_title L1 = none) (h1s : extract_section_title L1 = none)
    (h1v : is_valid L1 cfg.keywords = true) (h1t : classify_type L1 = EntryType.figureCaption)
    (h2c : extract_chapter_title L2 = none) (h2s : extract_section_title L2 = none)
    (h2v : is_valid L2 cfg.keywords = true) (h2t : classify_type L2 = EntryType.figureCaption)
    (h3c : extract_chapter_title P1 = none) (h3s : extract_section_title P1 = none)
    (h3v : is_valid P1 cfg.keywords = true) (h3t : classify_type P1 ≠ EntryType.figureCaption)
    (h4c : extract_chapter_title P2 = none) (h4s : extract_section_title P2 = none)
    (h4v : is_valid P2 cfg.keywords = true) (h4t : classify_type P2 ≠ EntryType.figureCaption) :
    ([L1, L2, P1, P2].foldl (stepPara cfg pg) st).results.map Entry.text =
        st.results.map Entry.text ++ [L2, L1] ∧
      ([L1, L2, P1, P2].foldl (stepPara cfg pg) st).results.map Entry.textFull =
        st.results.map Entry.textFull ++ [some (L2 ++ ' ' :: P1), some (L1 ++ ' ' :: P2)] ∧
      ([L1, L2, P1, P2].foldl (stepPara cfg pg) st).results.map Entry.fromFigureMerge =
        st.results.map Entry.fromFigureMerge ++ [true, true] := by
  simp only [List.foldl_cons, List.foldl_nil]
  rw [stepPara_caption cfg pg st h1c h1s h1v h1t]
  rw [stepPara_caption cfg pg _ h2c h2s h2v h2t]
  rw [stepPara_merge cfg pg _ h3c h3s h3v h3t (getLast?_append_single _ _)]
  rw [dropLast_append_single]
  rw [stepPara_merge cfg pg _ h4c h4s h4v h4t (getLast?_append_single _ _)]
  refine ⟨?_, ?_, ?_⟩ <;> simp [mergedFrom, bufEntry]

/-- Witness for c1_buffer_is_stack at the concrete stack scenario. -/
theorem c1_buffer_is_stack_witness :
    ([capA, capB, parA, parB].foldl (stepPara cfgT 1) initState).results.map Entry.text =
        initState.results.map Entry.text ++ [capB, capA] ∧
      ([capA, capB, parA, parB].foldl (stepPara cfgT 1) initState).results.map Entry.textFull =
        initState.results.map Entry.textFull ++
          [some (capB ++ ' ' :: parA), some (capA ++ ' ' :: parB)] ∧
      ([capA, capB, parA, parB].foldl (stepPara cfgT 1) initState).results.map
          Entry.fromFigureMerge =
        initState.results.map Entry.fromFigureMerge ++ [true, true] :=
  c1_buffer_is_stack cfgT 1 initState capA capB parA parB
    (by decide) (by decide) (by decide) (by decide)
    (by decide) (by decide) (by decide) (by decide)
    (by decide) (by decide) (by decide) (by decide)
    (by decide) (by decide) (by decide) (by decide)

/-! ### Claim C2 -/

/-- Claim C2: a FigureCaption-classified valid paragraph L1 immediately
followed by a valid paragraph L2 of any other classified type yields exactly
one output entry for the pair, whose text_full is L1's text, a space, then
L2's text, with from_figure_merge true; L2 produces no separate entry. -/
theorem c2_merge_consumption (cfg : Config) (p1 p2 : Nat) (st : EngState)
    (L1 L2 : List Char)
    (h1c : extract_chapter_title L1 = none) (h1s : extract_section_title L1 = none)
    (h1v : is_valid L1 cfg.keywords = true) (h1t : classify_type L1 = EntryType.figureCaption)
    (h2c : extract_chapter_title L2 = none) (h2s : extract_section_title L2 = none)
    (h2v : is_valid L2 cfg.keywords = true) (h2t : classify_type L2 ≠ EntryType.figureCaption) :
    (stepPara cfg p2 (stepPara cfg p1 st L1) L2).results.map Entry.text =
        st.results.map Entry.text ++ [L1] ∧
      (stepPara cfg p2 (stepPara cfg p1 st L1) L2).results.map Entry.textFull =
        st.results.map Entry.textFull ++ [some (L1 ++ ' ' :: L2)] ∧
      (stepPara cfg p2 (stepPara cfg p1 st L1) L2).results.map Entry.fromFigureMerge =
        st.results.map Entry.fromFigureMerge ++ [true] := by
  rw [stepPara_caption cfg p1 st h1c h1s h1v h1t]
  rw [stepPara_merge cfg p2 _ h2c h2s h2v h2t (getLast?_append_single _ _)]
  refine ⟨?_, ?_, ?_⟩ <;> simp [mergedFrom, bufEntry]

/-- Witness for c2_merge_consumption: caption capA at page 1 followed by the
continuation parA at page 2, starting from the initial state. -/
theorem c2_merge_consumption_witness :
    (stepPara cfgT 2 (stepPara cfgT 1 initState capA) parA).results.map Entry.text =
        initState.results.map Entry.text ++ [capA] ∧
      (stepPara cfgT 2 (stepPara cfgT 1 initState capA) parA).results.map Entry.textFull =
        initState.results.map Entry.textFull ++ [some (capA ++ ' ' :: parA)] ∧
      (stepPara cfgT 2 (stepPara cfgT 1 initState capA) parA).results.map
          Entry.fromFigureMerge =
        initState.results.map Entry.fromFigureMerge ++ [true] :=
  c2_merge_consumption cfgT 1 2 initState capA parA
    (by decide) (by decide) (by decide) (by decide)
    (by decide) (by decide) (by decide) (by decide)

/-! ### Claim C6 -/

/-- Claim C6: when a held caption is merged, the finalized entry's page,
chapter and section_title are the values current at the continuation line (not
those recorded at the caption line), its context_window is cleared to the
empty list, and its original caption text is kept unchanged as the left part
of the concatenation. -/
theorem c6_merge_overwrites_fields (cfg : Config) (pg : Nat) (st : EngState)
    (para : List Char) (held : Entry)
    (hc : extract_chapter_title para = none) (hs : extract_section_title para = none)
    (hv : is_valid para cfg.keywords = true)
    (ht : classify_type para ≠ EntryType.figureCaption)
    (hheld : st.buffer.getLast? = some held) :
    (stepPara cfg pg st para).results = st.results ++ [mergedFrom pg st held para] ∧
      (mergedFrom pg st held para).page = pg ∧
      (mergedFrom pg st held para).chapter = st.chapter ∧
      (mergedFrom pg st held para).sectionTitle = st.currentSection ∧
      (mergedFrom pg st held para).contextWindow = [] ∧
      (mergedFrom pg st held para).text = held.text ∧
      (mergedFrom pg st held para).textFull = some (held.text ++ ' ' :: para) := by
  refine ⟨?_, rfl, rfl, rfl, rfl, rfl, rfl⟩
  rw [stepPara_merge cfg pg st hc hs hv ht hheld]

/-- Witness for c6_merge_overwrites_fields: the held caption was recorded at
page 1 with no chapter / section; the merge at page 5 under a changed chapter
and section context takes the current values. -/
theorem c6_merge_overwrites_fields_witness :
    (stepPara cfgT 5 stW6 parB).results = stW6.results ++ [mergedFrom 5 stW6 heldW parB] ∧
      (mergedFrom 5 stW6 heldW parB).page = 5 ∧
      (mergedFrom 5 stW6 heldW parB).chapter = stW6.chapter ∧
      (mergedFrom 5 stW6 heldW parB).sectionTitle = stW6.currentSection ∧
      (mergedFrom 5 stW6 heldW parB).contextWindow = [] ∧
      (mergedFrom 5 stW6 heldW parB).text = heldW.text ∧
      (mergedFrom 5 stW6 heldW parB).textFull = some (heldW.text ++ ' ' :: parB) :=
  c6_merge_overwrites_fields cfgT 5 stW6 parB heldW
    (by decide) (by decide) (by decide) (by decide) (by decide)

/-! ### Claim C3 -/

/-- Claim C3: the engine never emits a figure-caption paragraph as an
independent output entry: every entry of the output whose type label is
FigureCaption came through the merge path (and a caption still pending at
stream end never reaches the output at all, since process_book returns only
the results list and discards the buffer). -/
theorem c3_caption_never_standalone (cfg : Config) (pages : List (List (List Char)))
    (e : Entry) (he : e ∈ process_book cfg pages)
    (ht : e.etype = EntryType.figureCaption) :
    e.fromFigureMerge = true :=
  (process_book_inv cfg pages e he).mpr ht

/-- Witness for c3_caption_never_standalone at the merged entry produced from
the caption capA followed by the continuation parA. -/
theorem c3_caption_never_standalone_witness : wEntry.fromFigureMerge = true :=
  c3_caption_never_standalone cfgT [[capA], [parA]] wEntry (by decide) (by decide)

/-! ### Claim C7 -/

/-- Claim C7, counterexample: the merged entry still carries the discrete
EntryType label (图注, recorded when the caption was buffered) — the merge
path does not drop the type field. -/
theorem c7_counterexample :
    (process_book cfgT [[capA], [parA]]).map (fun e => (e.fromFigureMerge, e.etype)) =
      [(true, EntryType.figureCaption)] := by
  decide

/-- Claim C7 (amended): every entry produced via the merge path retains the
EntryType recorded when the caption was buffered — which is always
FigureCaption — alongside the from_figure_merge flag; non-merged entries carry
exactly one EntryType as before (the type field is total on all entries). -/
theorem c7_merged_keeps_type (cfg : Config) (pages : List (List (List Char)))
    (e : Entry) (he : e ∈ process_book cfg pages)
    (hf : e.fromFigureMerge = true) :
    e.etype = EntryType.figureCaption :=
  (process_book_inv cfg pages e he).mp hf

/-- Witness for c7_merged_keeps_type at the same concrete merged entry. -/
theorem c7_merged_keeps_type_witness : wEntry.etype = EntryType.figureCaption :=
  c7_merged_keeps_type cfgT [[capA], [parA]] wEntry (by decide) (by decide)

/-! ### Claim C8 -/

/-- Claim C8: a standalone finalized entry's context_window holds the texts of
the up-to-two immediately preceding finalized entries, in order; it is empty
whenever fewer than two finalized entries exist, its length never exceeds 2,
and it is computed from the finalized result sequence. -/
theorem c8_context_window (cfg : Config) (pg : Nat) (st : EngState) (para : List Char)
    (hc : extract_chapter_title para = none) (hs : extract_section_title para = none)
    (hv : is_valid para cfg.keywords = true)
    (ht : classify_type para ≠ EntryType.figureCaption)
    (hb : st.buffer = []) :
    (stepPara cfg pg st para).results = st.results ++ [standaloneEntry cfg pg st para] ∧
      (standaloneEntry cfg pg st para).contextWindow.length ≤ 2 ∧
      (st.results.length < 2 → (standaloneEntry cfg pg st para).contextWindow = []) ∧
      (∀ (pre : List Entry) (a b : Entry), st.results = pre ++ [a, b] →
        (standaloneEntry cfg pg st para).contextWindow = [a.text, b.text]) := by
  have hl : st.buffer.getLast? = none := by rw [hb]; rfl
  refine ⟨congrArg EngState.results (stepPara_standalone cfg pg st hc hs hv ht hl), ?_, ?_, ?_⟩
  · by_cases h2 : 2 ≤ st.results.length
    · simp only [standaloneEntry, if_pos h2, List.length_map, List.length_drop]
      omega
    · simp [standaloneEntry, if_neg h2]
  · intro hlt
    have h2 : ¬ 2 ≤ st.results.length := by omega
    simp [standaloneEntry, if_neg h2]
  · intro pre a b hpre
    have hlen : st.results.length = pre.length + 2 := by
      rw [hpre]; simp
    have h2 : 2 ≤ st.results.length := by omega
    simp only [standaloneEntry, if_pos h2]
    rw [hpre]
    have hsub : (pre ++ [a, b]).length - 2 = pre.length := by simp
    rw [hsub, drop_length_append]
    rfl

/-- Witness for c8_context_window: processing a standalone paragraph after two
finalized entries yields a window of exactly their texts, in order. -/
theorem c8_context_window_witness :
    (stepPara cfgT 3 stW8 parA).results = stW8.results ++ [standaloneEntry cfgT 3 stW8 parA] ∧
      (standaloneEntry cfgT 3 stW8 parA).contextWindow = [parA, parB] := by
  obtain ⟨h1, h2, h3, h4⟩ :=
    c8_context_window cfgT 3 stW8 parA (by decide) (by decide) (by decide) (by decide) rfl
  exact ⟨h1, (h4 [] entA entB rfl).trans rfl⟩

/-! ### Claim C4 -/

/-- Claim C4, counterexample: on the concrete four-line input of the spec the
engine does not produce the claimed two entries. -/
theorem c4_counterexample : (process_book cfgC4 [c4lines]).length ≠ 2 := by
  decide

/-- Claim C4 (amended): on the concrete four-line input, merge_lines (the
120-character paragraph builder that runs before any per-paragraph check)
concatenates all four short lines into a single space-joined paragraph; that
paragraph starts with 第一章 followed by a space, so the chapter check consumes
it whole: the output is empty and the current chapter ends up being the entire
concatenation. -/
theorem c4_actual_output_empty :
    process_book cfgC4 [c4lines] = [] ∧
      merge_lines (pageLines c4lines) =
        [("第一章 概述 头肩顶是一种看跌反转形态，常见于趋势顶部区域。 图6.57 头肩顶示例 " ++
           "如图所示，颈线突破确认了该形态的有效性。").toList] ∧
      (process_pages cfgC4 [c4lines] 1 initState).chapter =
        some (("第一章 概述 头肩顶是一种看跌反转形态，常见于趋势顶部区域。 图6.57 头肩顶示例 " ++
           "如图所示，颈线突破确认了该形态的有效性。").toList) := by
  refine ⟨rfl, ?_, ?_⟩ <;> decide

/-! ### Claim C5 -/

/-- Claim C5, code evidence: process_book has no try / except, so a raise
while handling a single line aborts the whole document.  With pages parA,
a malformed line, parB: the run yields an error and no entries at all —
although the same two good lines alone yield two entries.  The claim (and the
spec's stated failure semantics) require the bad line to be dropped and the
rest to be processed. -/
theorem c5_exception_aborts :
    process_book_exc cfgT [[some parA], [none], [some parB]] = Except.error () ∧
      (process_book cfgT [[parA], [parB]]).length = 2 := by
  exact ⟨rfl, rfl⟩

/-! ### Claim C9 -/

/-- Claim C9: for an input stream in which no paragraph classifies as
FigureCaption, the output entries are exactly the paragraphs that survive the
heading checks and the validity filter, in stream order. -/
theorem c9_order_preservation (cfg : Config) (pages : List (List (List Char)))
    (h : ∀ p ∈ bookParas pages, classify_type p ≠ EntryType.figureCaption) :
    (process_book cfg pages).map Entry.text = (bookParas pages).filter (keepPred cfg) := by
  have hmain := (process_pages_no_caption cfg pages 1 initState rfl h).2
  simpa [process_book, initState] using hmain

/-- Witness for c9_order_preservation on a two-page caption-free input. -/
theorem c9_order_preservation_witness :
    (process_book cfgT [[parA], [parB]]).map Entry.text =
      (bookParas [[parA], [parB]]).filter (keepPred cfgT) :=
  c9_order_preservation cfgT [[parA], [parB]] (by decide)

/-! ### Claim C10 -/

/-- Claim C10: a non-chapter line whose stripped text has length at most 50
and contains a section keyword is consumed as a section heading: the current
section becomes the stripped text and nothing else in the state changes (no
entry is emitted, no buffer change) — validity filter and classifier never
run on it. -/
theorem c10_section_consumes (cfg : Config) (pg : Nat) (st : EngState) (para : List Char)
    (hc : extract_chapter_title para = none)
    (hlen : (pyStrip para).length ≤ 50)
    (hkw : (sectionKeywords.any fun kw => containsSub kw para) = true) :
    stepPara cfg pg st para = { st with currentSection := some (pyStrip para) } := by
  have hs : extract_section_title para = some (pyStrip para) := by
    unfold extract_section_title
    rw [if_pos ⟨hlen, hkw⟩]
  exact stepPara_section cfg pg st hc hs

/-- Witness for c10_section_consumes at a paragraph that passes the validity
filter and would classify as 术语, yet is silently consumed as a section
heading. -/
theorem c10_section_consumes_witness :
    is_valid secPara cfgF.keywords = true ∧
      classify_type secPara = EntryType.term ∧
      stepPara cfgF 1 initState secPara =
        { initState with currentSection := some (pyStrip secPara) } :=
  ⟨by decide, by decide,
    c10_section_consumes cfgF 1 initState secPara (by decide) (by decide) (by decide)⟩

end StockTerm
